import Mathlib

/-!
Verification of the iteration-orchestrator core of the `loop` repository:
status classifier (`extractLoopControl`), retry/wait coordinator
(`waitForIdleOrError`), and the orchestrator loop (`loopMain`), embedded
shallowly from `src/events.ts` and the orchestrator source file.
-/

namespace Loop

/-- Result of a `loop_control` declaration. In the source the `status` field is
declared as the union type `LoopStatus`, but at runtime the value is whatever
string the tool input carried (the cast `input.status as LoopStatus` performs
no check), so the embedding uses `String`. -/
structure LoopControlResult where
  status : String
  message : String
deriving DecidableEq

/-- Structured input of a tool part: `{ status?: string; message?: string }`. -/
structure ToolInput where
  status : Option String
  message : Option String
deriving DecidableEq

/-- State of a tool part, discriminated by its `status` tag as in the SDK. -/
inductive ToolState where
  | pending
  | running
  | completed (input : ToolInput)
  | error (input : ToolInput) (err : String)
deriving DecidableEq

/-- A message output part: either a tool invocation (with name and state) or
any other kind of part (text, reasoning, ...), which the classifier ignores. -/
inductive Part where
  | tool (tool : String) (state : ToolState)
  | other
deriving DecidableEq

/-- JavaScript `String.prototype.endsWith`: suffix test on the characters.
Defined on the underlying character lists so that it computes by structural
recursion. -/
def jsEndsWith (s post : String) : Bool :=
  post.data.isSuffixOf s.data

/-- Whether a part is a declare-status (`loop_control`) tool part:
`part.type === "tool" && part.tool.endsWith("loop_control")`. -/
def isLoopControl : Part → Bool
  | .tool t _ => jsEndsWith t "loop_control"
  | .other => false

/-- The reverse-iteration body of `extractLoopControl` from `src/events.ts`,
operating on the reversed parts list (most recent first). A `loop_control`
part in `completed` state yields `(input.status as LoopStatus) ?? "unknown"`
and `input.message ?? ""`; one in `error` state yields `"unknown"` with a
synthesized message; parts in any other state are skipped, as are all
non-`loop_control` parts. -/
def extractLoopControlRev : List Part → Option LoopControlResult
  | [] => none
  | p :: rest =>
    match p with
    | .tool t st =>
      if jsEndsWith t "loop_control" then
        match st with
        | .completed input =>
          some { status := input.status.getD "unknown", message := input.message.getD "" }
        | .error _ err =>
          some { status := "unknown", message := "loop_control tool errored: " ++ err }
        | _ => extractLoopControlRev rest
      else extractLoopControlRev rest
    | .other => extractLoopControlRev rest

/-- `extractLoopControl` from `src/events.ts`: scan the parts in reverse for
the most recent settled `loop_control` call. -/
def extractLoopControl (parts : List Part) : Option LoopControlResult :=
  extractLoopControlRev parts.reverse

/-- The verdict a single part would produce on its own, if any: some verdict
exactly when the part is a `loop_control` tool part in `completed` or `error`
state. Used to characterize which part `extractLoopControl` derives its
result from. -/
def settledVerdict : Part → Option LoopControlResult
  | .tool t st =>
    if jsEndsWith t "loop_control" then
      match st with
      | .completed input =>
        some { status := input.status.getD "unknown", message := input.message.getD "" }
      | .error _ err =>
        some { status := "unknown", message := "loop_control tool errored: " ++ err }
      | _ => none
    else none
  | .other => none

/-- Outcome of `waitForIdleOrError`: `"idle"` or `"error"` (retries exhausted). -/
inductive WaitResult where
  | idle
  | error
deriving DecidableEq

/-- Loop body of `waitForIdleOrError` from the orchestrator source. The turn
is modelled by the number of `session.error` signals delivered before the
`session.idle` signal (first argument). Each error increments `retries`;
once `retries >= maxRetries` the function returns `"error"`, otherwise
`onRetry(retries - 1)` runs and the wait restarts. Returns the result and
the list of arguments passed to `onRetry`, in order. -/
def waitGo (maxRetries : Nat) : Nat → Nat → WaitResult × List Nat
  | 0, _ => (.idle, [])
  | errs + 1, retries =>
    if retries + 1 ≥ maxRetries then (.error, [])
    else
      let r := waitGo maxRetries errs (retries + 1)
      (r.1, (retries + 1 - 1) :: r.2)

/-- `waitForIdleOrError(state, maxRetries, ui, onRetry)`: wait for idle or
error with a bounded retry policy, starting from `retries = 0`. -/
def waitForIdleOrError (errorsBeforeIdle maxRetries : Nat) : WaitResult × List Nat :=
  waitGo maxRetries errorsBeforeIdle 0

/-- Backoff delay (ms) before the retry prompt, from the orchestrator's
`onRetry` closure: `[0, 5000, 15000][retryNum] ?? 15000`. -/
def retryDelay (retryNum : Nat) : Nat :=
  [0, 5000, 15000].getD retryNum 15000

/-- Text sent by the `onRetry` closure after the backoff delay. -/
def retryPromptText : String :=
  "Continue working on the task. Pick up where you left off."

/-- Continuation message when the previous iteration had a present verdict
(the agent reported progress). -/
def progressMsg : String :=
  "Continue working on the task. You previously reported progress. Pick up where you left off. When you are done with all remaining work, you MUST call `loop_control` with status \x27complete\x27. Do NOT use \x27progress\x27 if there is nothing left to do."

/-- Continuation message after one consecutive miss. -/
def missOneMsg : String :=
  "You did not call the `loop_control` tool on your last turn. You MUST call `loop_control` at the end of every turn — it is the only way to signal the orchestrator. If all work is done, call `loop_control` with status \x27complete\x27. If there\x27s more to do, call it with \x27progress\x27. If you\x27re stuck, call it with \x27blocked\x27. Continue working, and make sure to call `loop_control` before your turn ends."

/-- Continuation message after two consecutive misses. -/
def missTwoMsg : String :=
  "IMPORTANT: You have failed to call `loop_control` for 2 consecutive turns. This is wasting loop iterations. You MUST call the `loop_control` tool RIGHT NOW. If your work is complete, call `loop_control` with status \x27complete\x27 and a brief summary. If you still have work to do, call `loop_control` with status \x27progress\x27. Do not perform any other actions — just call `loop_control` immediately."

/-- Leading fragment of the continuation message after three or more misses
(the miss count is spliced in after it). -/
def missManyHead : String :=
  "CRITICAL: You have NOT called `loop_control` for "

/-- Trailing fragment of the continuation message after three or more misses. -/
def missManyTail : String :=
  " consecutive turns. STOP all other work. Your ONLY task right now is to call the `loop_control` tool. Call `loop_control` with status \x27complete\x27 if work is done, \x27progress\x27 if not, or \x27blocked\x27 if stuck. Do NOT do anything else. Just call `loop_control`."

/-- The escalation policy composing the next continuation prompt from the
previous iteration's verdict and the consecutive-miss counter, exactly as in
the orchestrator's `continueMsg` selection. -/
def continueMessage (loopResult : Option LoopControlResult) (consecutiveMisses : Nat) : String :=
  match loopResult with
  | some _ => progressMsg
  | none =>
    if consecutiveMisses == 1 then missOneMsg
    else if consecutiveMisses == 2 then missTwoMsg
    else missManyHead ++ toString consecutiveMisses ++ missManyTail

/-- Result of the pull query `getLatestAssistantParts`: the latest assistant
message's parts together with its cost and token counts. Costs are modelled
as rationals. -/
structure AssistantData where
  parts : List Part
  cost : ℚ
  tokensIn : Nat
  tokensOut : Nat
deriving DecidableEq

/-- What the environment (agent runtime + event stream) does during one turn:
how many error signals precede idle, the inline verdict the event bridge
captured via SSE (the value of `eventState.latestLoopControl` when the wait
returns, after its reset at iteration start), what the pull query would
return, and the observed wall-clock duration. -/
structure TurnBehavior where
  errors : Nat
  inline : Option LoopControlResult
  pull : Option AssistantData
  duration : Nat
deriving DecidableEq

/-- An `IterationSummary` record as appended to the run list. -/
structure IterationSummary where
  iteration : Nat
  status : Option LoopControlResult
  cost : ℚ
  tokensIn : Nat
  tokensOut : Nat
  duration : Nat
deriving DecidableEq

/-- The orchestrator-local mutable state of `loopMain`, together with the
observable interaction log: every text passed to `sendPrompt` (in order) and
the number of `getLatestAssistantParts` pull queries issued. -/
structure LoopState where
  summaries : List IterationSummary
  totalCost : ℚ
  currentIteration : Nat
  consecutiveMisses : Nat
  prompts : List String
  pullCalls : Nat
deriving DecidableEq

/-- How one loop iteration ended. -/
inductive StepOutcome where
  | continueLoop
  | stopVerdict
  | stopError
  | stopBudget
deriving DecidableEq

/-- Result of one iteration of the main loop: the updated state, how the
iteration ended, the reconciled verdict, and whether the pull query /
the classifier (`extractLoopControl`) were invoked during reconciliation. -/
structure StepResult where
  state : LoopState
  outcome : StepOutcome
  verdict : Option LoopControlResult
  pullInvoked : Bool
  classifierInvoked : Bool
deriving DecidableEq

/-- Tail of a loop iteration past the stop checks: `currentIteration++`,
break when the budget is exceeded, otherwise compose the escalation message
and send it. -/
def continueStep (maxIterations : Nat) (st : LoopState)
    (verdict : Option LoopControlResult) (classifierInvoked : Bool) : StepResult :=
  let st1 := { st with currentIteration := st.currentIteration + 1 }
  if st1.currentIteration > maxIterations then
    { state := st1, outcome := .stopBudget, verdict := verdict,
      pullInvoked := true, classifierInvoked := classifierInvoked }
  else
    let msg := continueMessage verdict st1.consecutiveMisses
    { state := { st1 with prompts := st1.prompts ++ [msg] },
      outcome := .continueLoop, verdict := verdict,
      pullInvoked := true, classifierInvoked := classifierInvoked }

/-- One iteration of the `while` body of `loopMain`: wait for idle or error
(retry prompts are sent by `onRetry`), on idle reset-captured inline verdict
is preferred and the pull query is issued unconditionally; fall back to
`extractLoopControl` over the pulled parts only when the inline verdict is
absent; append the `IterationSummary`; update `consecutiveMisses`; stop on a
`complete`/`blocked` verdict or on budget exhaustion. -/
def loopStep (maxIterations maxRetries : Nat) (st : LoopState) (turn : TurnBehavior) :
    StepResult :=
  let w := waitForIdleOrError turn.errors maxRetries
  let st1 := { st with prompts := st.prompts ++ w.2.map (fun _ => retryPromptText) }
  match w.1 with
  | .error =>
    { state := st1, outcome := .stopError, verdict := none,
      pullInvoked := false, classifierInvoked := false }
  | .idle =>
    let assistantData := turn.pull
    let st2 := { st1 with pullCalls := st1.pullCalls + 1 }
    let rc :=
      match turn.inline with
      | some r => (some r, false)
      | none =>
        match assistantData with
        | some d => (extractLoopControl d.parts, true)
        | none => ((none : Option LoopControlResult), false)
    let loopResult := rc.1
    let summary : IterationSummary :=
      { iteration := st2.currentIteration
        status := loopResult
        cost := (assistantData.map (fun d => d.cost)).getD 0
        tokensIn := (assistantData.map (fun d => d.tokensIn)).getD 0
        tokensOut := (assistantData.map (fun d => d.tokensOut)).getD 0
        duration := turn.duration }
    let st3 := { st2 with summaries := st2.summaries ++ [summary],
                          totalCost := st2.totalCost + summary.cost }
    match loopResult with
    | some r =>
      let st4 := { st3 with consecutiveMisses := 0 }
      if r.status == "complete" || r.status == "blocked" then
        { state := st4, outcome := .stopVerdict, verdict := some r,
          pullInvoked := true, classifierInvoked := rc.2 }
      else
        continueStep maxIterations st4 (some r) rc.2
    | none =>
      let st4 := { st3 with consecutiveMisses := st3.consecutiveMisses + 1 }
      continueStep maxIterations st4 none rc.2

/-- The `while currentIteration <= maxIterations` loop of `loopMain`, driven
by the per-turn behaviour trace (one entry consumed per iteration; external
interrupts are out of scope, so `aborted` stays false). -/
def loopGo (maxIterations maxRetries : Nat) : LoopState → List TurnBehavior → LoopState
  | st, [] => st
  | st, turn :: rest =>
    if st.currentIteration ≤ maxIterations then
      let r := loopStep maxIterations maxRetries st turn
      match r.outcome with
      | .continueLoop => loopGo maxIterations maxRetries r.state rest
      | _ => r.state
    else st

/-- The state of `loopMain` just before entering the main loop: empty run
list, zero cost, iteration 1, zero misses, and the initial prompt already
sent. -/
def initialState (initialPrompt : String) : LoopState :=
  { summaries := [], totalCost := 0, currentIteration := 1,
    consecutiveMisses := 0, prompts := [initialPrompt], pullCalls := 0 }

/-- `loopMain` for one run: send the initial prompt, then iterate the main
loop over the environment's turn behaviours. The returned state carries the
run list and `totalCost` that `loopMain` passes to `ui.onLoopComplete`. -/
def loopMain (maxIterations maxRetries : Nat) (initialPrompt : String)
    (trace : List TurnBehavior) : LoopState :=
  loopGo maxIterations maxRetries (initialState initialPrompt) trace

/-- The tri-state final result derived by `TuiUI.onLoopComplete` from the last
record's verdict: `"complete"`, `"blocked"`, or `"incomplete"`. -/
def finalResult (summaries : List IterationSummary) : String :=
  match summaries.getLast? with
  | none => "incomplete"
  | some s =>
    match s.status with
    | some r =>
      if r.status == "complete" then "complete"
      else if r.status == "blocked" then "blocked"
      else "incomplete"
    | none => "incomplete"

/-! Helper lemmas about the classifier. -/

lemma settledVerdict_isSome_isLoopControl (y : Part) (h : (settledVerdict y).isSome = true) :
    isLoopControl y = true := by
  cases y with
  | other => simp [settledVerdict] at h
  | tool t st =>
    by_cases hc : jsEndsWith t "loop_control"
    · simpa [isLoopControl] using hc
    · simp [settledVerdict, hc] at h

lemma find?_of_stronger {p q : Part → Bool} (himp : ∀ y, q y = true → p y = true) :
    ∀ (l : List Part) (x : Part), l.find? p = some x → q x = true → l.find? q = some x := by
  intro l
  induction l with
  | nil => intro x hx; simp [List.find?] at hx
  | cons a rest ih =>
    intro x hx hq
    by_cases hpa : p a = true
    · rw [List.find?_cons_of_pos _ hpa] at hx
      have hax : a = x := by injection hx
      subst hax
      rw [List.find?_cons_of_pos _ hq]
    · have hqa : q a = false := by
        by_contra hqa
        exact hpa (himp a (by revert hqa; cases q a <;> simp))
      rw [List.find?_cons_of_neg _ (by simp [hpa])] at hx
      rw [List.find?_cons_of_neg _ (by simp [hqa])]
      exact ih x hx hq

lemma extractLoopControlRev_eq_find (l : List Part) :
    extractLoopControlRev l =
      (l.find? (fun p => (settledVerdict p).isSome)).bind settledVerdict := by
  induction l with
  | nil => rfl
  | cons p rest ih =>
    cases p with
    | other => simpa [extractLoopControlRev, settledVerdict, List.find?_cons] using ih
    | tool t st =>
      by_cases h : jsEndsWith t "loop_control"
      · cases st <;> simp [extractLoopControlRev, settledVerdict, List.find?_cons, h, ih]
      · simp [extractLoopControlRev, settledVerdict, List.find?_cons, h, ih]

lemma extractLoopControlRev_eq_none (l : List Part) (h : ∀ p ∈ l, isLoopControl p = false) :
    extractLoopControlRev l = none := by
  induction l with
  | nil => rfl
  | cons p rest ih =>
    have hp := h p (List.mem_cons_self p rest)
    have hrest : ∀ q ∈ rest, isLoopControl q = false := fun q hq => h q (List.mem_cons_of_mem p hq)
    cases p with
    | other => simpa [extractLoopControlRev] using ih hrest
    | tool t st =>
      have ht : jsEndsWith t "loop_control" = false := by simpa [isLoopControl] using hp
      simpa [extractLoopControlRev, ht] using ih hrest

/-! Helper lemmas about the retry policy. -/

lemma waitGo_error (m : Nat) :
    ∀ e retries, 1 ≤ e → m ≤ e + retries →
      waitGo m e retries = (.error, List.range' retries (m - 1 - retries)) := by
  intro e
  induction e with
  | zero => intro r h1 _; omega
  | succ e ih =>
    intro r _ h2
    by_cases hge : r + 1 ≥ m
    · have hz : m - 1 - r = 0 := by omega
      simp [waitGo, hge, hz]
    · have hlt : ¬ (r + 1 ≥ m) := hge
      have he : 1 ≤ e := by omega
      have h2x : m ≤ e + (r + 1) := by omega
      have hk : m - 1 - r = (m - 1 - (r + 1)) + 1 := by omega
      simp only [waitGo, if_neg hlt, ih (r + 1) he h2x, hk, List.range'_succ]
      simp

/-! Helper lemmas about the escalation messages. -/

lemma head_of_missMany (s : String) :
    (missManyHead ++ s ++ missManyTail).data.head? = some 'C' := by
  rw [String.data_append, String.data_append]
  rfl

lemma missMany_ne (s : String) (t : String) (ht : t.data.head? ≠ some 'C') :
    missManyHead ++ s ++ missManyTail ≠ t := by
  intro he
  exact ht (by rw [← he, head_of_missMany])

lemma continueMessage_many (k : Nat) (hk : 3 ≤ k) :
    continueMessage none k = missManyHead ++ toString k ++ missManyTail := by
  have h1 : (k == 1) = false := by simp; omega
  have h2 : (k == 2) = false := by simp; omega
  simp [continueMessage, h1, h2]

lemma escalation_distinct :
    continueMessage none 1 ≠ continueMessage none 2 ∧
    ∀ k, 3 ≤ k → continueMessage none k ≠ continueMessage none 1 ∧
                 continueMessage none k ≠ continueMessage none 2 := by
  refine ⟨by decide, fun k hk => ?_⟩
  rw [continueMessage_many k hk]
  exact ⟨missMany_ne _ _ (by decide), missMany_ne _ _ (by decide)⟩

/-! Projection lemmas for the tail of a loop iteration. -/

@[simp] lemma continueStep_state_summaries (maxI : Nat) (st : LoopState)
    (v : Option LoopControlResult) (ci : Bool) :
    (continueStep maxI st v ci).state.summaries = st.summaries := by
  simp only [continueStep]; split <;> rfl

@[simp] lemma continueStep_state_totalCost (maxI : Nat) (st : LoopState)
    (v : Option LoopControlResult) (ci : Bool) :
    (continueStep maxI st v ci).state.totalCost = st.totalCost := by
  simp only [continueStep]; split <;> rfl

@[simp] lemma continueStep_state_currentIteration (maxI : Nat) (st : LoopState)
    (v : Option LoopControlResult) (ci : Bool) :
    (continueStep maxI st v ci).state.currentIteration = st.currentIteration + 1 := by
  simp only [continueStep]; split <;> rfl

@[simp] lemma continueStep_state_consecutiveMisses (maxI : Nat) (st : LoopState)
    (v : Option LoopControlResult) (ci : Bool) :
    (continueStep maxI st v ci).state.consecutiveMisses = st.consecutiveMisses := by
  simp only [continueStep]; split <;> rfl

@[simp] lemma continueStep_state_pullCalls (maxI : Nat) (st : LoopState)
    (v : Option LoopControlResult) (ci : Bool) :
    (continueStep maxI st v ci).state.pullCalls = st.pullCalls := by
  simp only [continueStep]; split <;> rfl

@[simp] lemma continueStep_verdict (maxI : Nat) (st : LoopState)
    (v : Option LoopControlResult) (ci : Bool) :
    (continueStep maxI st v ci).verdict = v := by
  simp only [continueStep]; split <;> rfl

@[simp] lemma continueStep_pullInvoked (maxI : Nat) (st : LoopState)
    (v : Option LoopControlResult) (ci : Bool) :
    (continueStep maxI st v ci).pullInvoked = true := by
  simp only [continueStep]; split <;> rfl

@[simp] lemma continueStep_classifierInvoked (maxI : Nat) (st : LoopState)
    (v : Option LoopControlResult) (ci : Bool) :
    (continueStep maxI st v ci).classifierInvoked = ci := by
  simp only [continueStep]; split <;> rfl

@[simp] lemma continueStep_outcome_ne_stopError (maxI : Nat) (st : LoopState)
    (v : Option LoopControlResult) (ci : Bool) :
    ¬ (continueStep maxI st v ci).outcome = .stopError := by
  simp only [continueStep]; split <;> simp

/-! Step-level characterization of one loop iteration. -/

lemma loopStep_miss (maxI maxR : Nat) (st : LoopState) (turn : TurnBehavior)
    (h1 : turn.errors = 0) (h2 : turn.inline = none)
    (h3 : ∀ d, turn.pull = some d → extractLoopControl d.parts = none) :
    loopStep maxI maxR st turn =
      { state :=
          { summaries := st.summaries ++
              [{ iteration := st.currentIteration, status := none,
                 cost := (turn.pull.map (fun d => d.cost)).getD 0,
                 tokensIn := (turn.pull.map (fun d => d.tokensIn)).getD 0,
                 tokensOut := (turn.pull.map (fun d => d.tokensOut)).getD 0,
                 duration := turn.duration }],
            totalCost := st.totalCost + (turn.pull.map (fun d => d.cost)).getD 0,
            currentIteration := st.currentIteration + 1,
            consecutiveMisses := st.consecutiveMisses + 1,
            prompts := st.prompts ++
              (if st.currentIteration + 1 > maxI then []
               else [continueMessage none (st.consecutiveMisses + 1)]),
            pullCalls := st.pullCalls + 1 },
        outcome := if st.currentIteration + 1 > maxI then .stopBudget else .continueLoop,
        verdict := none, pullInvoked := true, classifierInvoked := turn.pull.isSome } := by
  rcases hp : turn.pull with _ | d
  · by_cases hb : st.currentIteration + 1 > maxI <;>
      simp [loopStep, continueStep, h1, h2, hp, hb, waitForIdleOrError, waitGo]
  · have he := h3 d hp
    by_cases hb : st.currentIteration + 1 > maxI <;>
      simp [loopStep, continueStep, h1, h2, hp, he, hb, waitForIdleOrError, waitGo]

lemma loopStep_cases (maxI maxR : Nat) (st : LoopState) (turn : TurnBehavior) :
    ((loopStep maxI maxR st turn).outcome = .stopError ∧
      (loopStep maxI maxR st turn).state.summaries = st.summaries ∧
      (loopStep maxI maxR st turn).state.totalCost = st.totalCost ∧
      (loopStep maxI maxR st turn).state.currentIteration = st.currentIteration) ∨
    (¬ (loopStep maxI maxR st turn).outcome = .stopError ∧
      ∃ s : IterationSummary,
      s.iteration = st.currentIteration ∧
      s.cost = (turn.pull.map (fun d => d.cost)).getD 0 ∧
      (loopStep maxI maxR st turn).state.summaries = st.summaries ++ [s] ∧
      (loopStep maxI maxR st turn).state.totalCost = st.totalCost + s.cost ∧
      ((loopStep maxI maxR st turn).outcome = .continueLoop →
        (loopStep maxI maxR st turn).state.currentIteration = st.currentIteration + 1)) := by
  rcases hw : (waitForIdleOrError turn.errors maxR).1 with _ | _
  · refine Or.inr ?_
    rcases hi : turn.inline with _ | r
    · rcases hp : turn.pull with _ | d
      · refine ⟨by simp [loopStep, hw, hi, hp],
          ⟨st.currentIteration, none, 0, 0, 0, turn.duration⟩,
          rfl, by simp [hp],
          by simp [loopStep, hw, hi, hp],
          by simp [loopStep, hw, hi, hp],
          by simp [loopStep, hw, hi, hp]⟩
      · rcases he : extractLoopControl d.parts with _ | r2
        · refine ⟨by simp [loopStep, hw, hi, hp, he],
            ⟨st.currentIteration, none, d.cost, d.tokensIn, d.tokensOut, turn.duration⟩,
            rfl, by simp [hp],
            by simp [loopStep, hw, hi, hp, he],
            by simp [loopStep, hw, hi, hp, he],
            by simp [loopStep, hw, hi, hp, he]⟩
        · refine ⟨?_,
            ⟨st.currentIteration, some r2, d.cost, d.tokensIn, d.tokensOut, turn.duration⟩,
            rfl, by simp [hp], ?_, ?_, ?_⟩ <;>
          · simp only [loopStep, hw, hi, hp, he]
            split <;> simp
    · refine ⟨?_,
        ⟨st.currentIteration, some r,
          (turn.pull.map (fun d => d.cost)).getD 0,
          (turn.pull.map (fun d => d.tokensIn)).getD 0,
          (turn.pull.map (fun d => d.tokensOut)).getD 0,
          turn.duration⟩,
        rfl, rfl, ?_, ?_, ?_⟩ <;>
      · simp only [loopStep, hw, hi]
        split <;> simp
  · refine Or.inl ?_
    simp [loopStep, hw]

/-! Run-level invariants of the main loop. -/

lemma loopGo_indices (maxI maxR : Nat) :
    ∀ (trace : List TurnBehavior) (st : LoopState),
      st.summaries.map (fun s => s.iteration) = List.range' 1 st.summaries.length →
      st.currentIteration = st.summaries.length + 1 →
      (loopGo maxI maxR st trace).summaries.map (fun s => s.iteration) =
        List.range' 1 (loopGo maxI maxR st trace).summaries.length := by
  intro trace
  induction trace with
  | nil => intro st h1 _; simpa [loopGo] using h1
  | cons turn rest ih =>
    intro st h1 h2
    simp only [loopGo]
    by_cases hle : st.currentIteration ≤ maxI
    · simp only [if_pos hle]
      rcases loopStep_cases maxI maxR st turn with ⟨ho, hs, _, _⟩ | ⟨_, s, hsi, _, hs, _, hci⟩
      · simp only [ho, hs, h1]
      · have hmap : (loopStep maxI maxR st turn).state.summaries.map (fun s => s.iteration) =
            List.range' 1 (loopStep maxI maxR st turn).state.summaries.length := by
          rw [hs]
          simp only [List.map_append, List.length_append, List.map_cons, List.map_nil,
            List.length_cons, List.length_nil]
          rw [h1, hsi, h2, List.range'_1_concat]
          simp [Nat.add_comm]
        rcases hoc : (loopStep maxI maxR st turn).outcome with _ | _ | _ | _
        · simp only [hoc]
          exact ih _ hmap (by
            rw [hci hoc, hs, h2]
            simp)
        · simp only [hoc]; exact hmap
        · simp only [hoc]; exact hmap
        · simp only [hoc]; exact hmap
    · simp only [if_neg hle]; exact h1

lemma loopGo_totalCost (maxI maxR : Nat) :
    ∀ (trace : List TurnBehavior) (st : LoopState),
      st.totalCost = (st.summaries.map (fun s => s.cost)).sum →
      (loopGo maxI maxR st trace).totalCost =
        ((loopGo maxI maxR st trace).summaries.map (fun s => s.cost)).sum := by
  intro trace
  induction trace with
  | nil => intro st h1; simpa [loopGo] using h1
  | cons turn rest ih =>
    intro st h1
    simp only [loopGo]
    by_cases hle : st.currentIteration ≤ maxI
    · simp only [if_pos hle]
      rcases loopStep_cases maxI maxR st turn with ⟨ho, hs, hc, _⟩ | ⟨_, s, _, _, hs, hc, _⟩
      · simp only [ho, hs, hc, h1]
      · have hinv : (loopStep maxI maxR st turn).state.totalCost =
            ((loopStep maxI maxR st turn).state.summaries.map (fun s => s.cost)).sum := by
          rw [hs, hc, h1]
          simp
        rcases hoc : (loopStep maxI maxR st turn).outcome with _ | _ | _ | _
        · simp only [hoc]; exact ih _ hinv
        · simp only [hoc]; exact hinv
        · simp only [hoc]; exact hinv
        · simp only [hoc]; exact hinv
    · simp only [if_neg hle]; exact h1

/-! Claim theorems. -/

set_option maxRecDepth 8000 in
/-- C1 (counterexample): the claim asserts that when the event bridge captured
an inline verdict and the wait returned idle, the pull query is not invoked
during that iteration. In the orchestrator, `getLatestAssistantParts` is
invoked unconditionally (it also supplies cost and token data) before the
inline verdict is consulted, so at this concrete iteration the inline verdict
is used as the status and yet the pull query is invoked (`pullCalls = 1`),
refuting the claim. -/
theorem c1_counterexample :
    (⟨0, some ⟨"progress", "halfway"⟩,
        some ⟨[.tool "loop_control" (.completed ⟨some "complete", some "pulled"⟩)], 0, 0, 0⟩,
        5⟩ : TurnBehavior).inline = some ⟨"progress", "halfway"⟩ ∧
    (waitForIdleOrError (⟨0, some ⟨"progress", "halfway"⟩,
        some ⟨[.tool "loop_control" (.completed ⟨some "complete", some "pulled"⟩)], 0, 0, 0⟩,
        5⟩ : TurnBehavior).errors 3).1 = .idle ∧
    (loopStep 10 3 (initialState "task")
        ⟨0, some ⟨"progress", "halfway"⟩,
          some ⟨[.tool "loop_control" (.completed ⟨some "complete", some "pulled"⟩)], 0, 0, 0⟩,
          5⟩).state.summaries.map (fun s => s.status) = [some ⟨"progress", "halfway"⟩] ∧
    (loopStep 10 3 (initialState "task")
        ⟨0, some ⟨"progress", "halfway"⟩,
          some ⟨[.tool "loop_control" (.completed ⟨some "complete", some "pulled"⟩)], 0, 0, 0⟩,
          5⟩).pullInvoked = true ∧
    (loopStep 10 3 (initialState "task")
        ⟨0, some ⟨"progress", "halfway"⟩,
          some ⟨[.tool "loop_control" (.completed ⟨some "complete", some "pulled"⟩)], 0, 0, 0⟩,
          5⟩).state.pullCalls = 1 := by
  decide

/-- C1 (amended): for every iteration whose wait returns idle and whose
event-bridge-captured inline verdict is present, that inline verdict is used
as the iteration's status (the appended record carries it) and the classifier
`extractLoopControl` is never run over the pulled parts; the pull query
itself is nevertheless always invoked (exactly once per idle iteration) to
obtain cost and token data. -/
theorem c1_inline_precedence (maxI maxR : Nat) (st : LoopState) (turn : TurnBehavior)
    (r : LoopControlResult)
    (hw : (waitForIdleOrError turn.errors maxR).1 = .idle)
    (hi : turn.inline = some r) :
    (loopStep maxI maxR st turn).verdict = some r ∧
    (loopStep maxI maxR st turn).classifierInvoked = false ∧
    (loopStep maxI maxR st turn).pullInvoked = true ∧
    (loopStep maxI maxR st turn).state.pullCalls = st.pullCalls + 1 ∧
    (loopStep maxI maxR st turn).state.summaries.map (fun s => s.status) =
      st.summaries.map (fun s => s.status) ++ [some r] := by
  simp only [loopStep, hi, hw]
  split
  · simp
  · simp only [continueStep]
    split <;> simp

/-- C1 (witness): the amended theorem applied at a concrete iteration with an
inline verdict. -/
theorem c1_witness :
    (loopStep 10 3 (initialState "task") ⟨0, some ⟨"progress", "go"⟩, none, 2⟩).verdict =
      some ⟨"progress", "go"⟩ ∧
    (loopStep 10 3 (initialState "task")
        ⟨0, some ⟨"progress", "go"⟩, none, 2⟩).classifierInvoked = false ∧
    (loopStep 10 3 (initialState "task")
        ⟨0, some ⟨"progress", "go"⟩, none, 2⟩).pullInvoked = true ∧
    (loopStep 10 3 (initialState "task")
        ⟨0, some ⟨"progress", "go"⟩, none, 2⟩).state.pullCalls = 1 ∧
    (loopStep 10 3 (initialState "task")
        ⟨0, some ⟨"progress", "go"⟩, none, 2⟩).state.summaries.map (fun s => s.status) =
      [some ⟨"progress", "go"⟩] :=
  c1_inline_precedence 10 3 (initialState "task") ⟨0, some ⟨"progress", "go"⟩, none, 2⟩
    ⟨"progress", "go"⟩ rfl rfl

/-- C2 (counterexample): the claim asserts the classifier derives its result
exclusively from the single most recent declare-status part, and that when
that part determines no verdict no earlier one is used. Here the most recent
`loop_control` part is still `running` (alone it yields no verdict), yet the
classifier returns the verdict of the earlier completed part, refuting the
claim. -/
theorem c2_counterexample :
    [Part.tool "loop_control" (.completed ⟨some "complete", some "done"⟩),
     Part.tool "loop_control" .running].reverse.find? isLoopControl =
      some (Part.tool "loop_control" .running) ∧
    extractLoopControl [Part.tool "loop_control" .running] = none ∧
    extractLoopControl
      [Part.tool "loop_control" (.completed ⟨some "complete", some "done"⟩),
       Part.tool "loop_control" .running] = some ⟨"complete", "done"⟩ := by
  decide

/-- C2 (amended): the classifier derives its result exclusively from the most
recent settled (completed or errored) declare-status part: its result is
exactly the verdict of the first part, scanning most-recent-first, that is a
`loop_control` tool part in `completed` or `error` state, and absent when no
such settled part exists. Declare-status parts still `pending` or `running`
are skipped, so an earlier completed part can supply the verdict. -/
theorem c2_most_recent_settled (parts : List Part) :
    extractLoopControl parts =
      (parts.reverse.find? (fun p => (settledVerdict p).isSome)).bind settledVerdict :=
  extractLoopControlRev_eq_find parts.reverse

/-- C3 (counterexample): the claim asserts any status value not in
complete/blocked/progress is mapped to `unknown`. The code casts the input
status through unchecked (`input.status as LoopStatus`), so an unrecognized
status string is returned verbatim, refuting the claim. -/
theorem c3_counterexample :
    extractLoopControl [.tool "loop_control" (.completed ⟨some "banana", some "hi"⟩)] =
      some ⟨"banana", "hi"⟩ ∧
    "banana" ∉ (["complete", "blocked", "progress", "unknown"] : List String) := by
  decide

/-- C3 (amended): for every parts list whose most recent declare-status part
is in the completed state, the classifier always returns a verdict (the input
is never rejected) whose message is the input's message (empty string when
missing) and whose status is the input's status string taken verbatim when
present — even when it is not one of complete/blocked/progress — and
`unknown` only when the status field is missing. -/
theorem c3_status_passthrough (parts : List Part) (t : String) (i : ToolInput)
    (h : parts.reverse.find? isLoopControl = some (.tool t (.completed i))) :
    extractLoopControl parts =
      some { status := i.status.getD "unknown", message := i.message.getD "" } := by
  have hlc : isLoopControl (.tool t (.completed i)) = true := List.find?_some h
  have ht : jsEndsWith t "loop_control" = true := by simpa [isLoopControl] using hlc
  have hq : (settledVerdict (.tool t (.completed i))).isSome = true := by
    simp [settledVerdict, ht]
  have hfind := find?_of_stronger settledVerdict_isSome_isLoopControl parts.reverse _ h hq
  rw [extractLoopControl, extractLoopControlRev_eq_find, hfind]
  simp [settledVerdict, ht]

/-- C3 (witness): the amended theorem applied to a completed `loop_control`
part with a missing status and a present message. -/
theorem c3_witness :
    extractLoopControl [Part.tool "loop_control" (.completed ⟨none, some "m"⟩)] =
      some ⟨"unknown", "m"⟩ :=
  c3_status_passthrough [Part.tool "loop_control" (.completed ⟨none, some "m"⟩)]
    "loop_control" ⟨none, some "m"⟩ (by decide)

/-- C4 (theorem): with `maxIterations = 3` and an agent that never produces a
verdict (no inline verdict, pulled parts classify to absent, no turn errors),
the loop terminates after exactly 3 iterations with exactly 3 appended
records all carrying an absent status, exactly 3 prompts sent (the initial
prompt plus the miss-1 and miss-2 continuations), the final result derived
from the run is `"incomplete"`, and the escalation texts composed at miss
counts 1, 2 and ≥ 3 are pairwise distinct. -/
theorem c4_budget_exhaustion_run (maxR : Nat) (prompt : String) (t1 t2 t3 : TurnBehavior)
    (h1e : t1.errors = 0) (h1i : t1.inline = none)
    (h1p : ∀ d, t1.pull = some d → extractLoopControl d.parts = none)
    (h2e : t2.errors = 0) (h2i : t2.inline = none)
    (h2p : ∀ d, t2.pull = some d → extractLoopControl d.parts = none)
    (h3e : t3.errors = 0) (h3i : t3.inline = none)
    (h3p : ∀ d, t3.pull = some d → extractLoopControl d.parts = none) :
    (loopMain 3 maxR prompt [t1, t2, t3]).summaries.length = 3 ∧
    (loopMain 3 maxR prompt [t1, t2, t3]).summaries.map (fun s => s.status) =
      [none, none, none] ∧
    (loopMain 3 maxR prompt [t1, t2, t3]).prompts =
      [prompt, continueMessage none 1, continueMessage none 2] ∧
    finalResult (loopMain 3 maxR prompt [t1, t2, t3]).summaries = "incomplete" ∧
    (continueMessage none 1 ≠ continueMessage none 2 ∧
      ∀ k, 3 ≤ k → continueMessage none k ≠ continueMessage none 1 ∧
                   continueMessage none k ≠ continueMessage none 2) := by
  have s1 := loopStep_miss 3 maxR (initialState prompt) t1 h1e h1i h1p
  have cif1 : ¬ ((initialState prompt).currentIteration + 1 > 3) := by simp [initialState]
  rw [if_neg cif1, if_neg cif1] at s1
  have hit2 : (loopStep 3 maxR (initialState prompt) t1).state.currentIteration = 2 := by
    rw [s1]; simp [initialState]
  have s2 := loopStep_miss 3 maxR (loopStep 3 maxR (initialState prompt) t1).state t2 h2e h2i h2p
  have cif2 : ¬ ((loopStep 3 maxR (initialState prompt) t1).state.currentIteration + 1 > 3) := by
    rw [hit2]; norm_num
  rw [if_neg cif2, if_neg cif2] at s2
  have hit3 :
      (loopStep 3 maxR (loopStep 3 maxR (initialState prompt) t1).state t2).state.currentIteration = 3 := by
    rw [s2]; simp [hit2]
  have s3 := loopStep_miss 3 maxR
    (loopStep 3 maxR (loopStep 3 maxR (initialState prompt) t1).state t2).state t3 h3e h3i h3p
  have cif3 :
      (loopStep 3 maxR (loopStep 3 maxR (initialState prompt) t1).state t2).state.currentIteration + 1 > 3 := by
    rw [hit3]; norm_num
  rw [if_pos cif3, if_pos cif3] at s3
  have hle1 : (initialState prompt).currentIteration ≤ 3 := by simp [initialState]
  have hle2 : (loopStep 3 maxR (initialState prompt) t1).state.currentIteration ≤ 3 := by
    rw [hit2]; norm_num
  have hle3 :
      (loopStep 3 maxR (loopStep 3 maxR (initialState prompt) t1).state t2).state.currentIteration ≤ 3 := by
    rw [hit3]
  have ho1 : (loopStep 3 maxR (initialState prompt) t1).outcome = .continueLoop := by
    rw [s1]
  have ho2 : (loopStep 3 maxR (loopStep 3 maxR (initialState prompt) t1).state t2).outcome =
      .continueLoop := by
    rw [s2]
  have ho3 :
      (loopStep 3 maxR (loopStep 3 maxR (loopStep 3 maxR (initialState prompt) t1).state t2).state t3).outcome = .stopBudget := by
    rw [s3]
  have run : loopMain 3 maxR prompt [t1, t2, t3] =
      (loopStep 3 maxR (loopStep 3 maxR (loopStep 3 maxR (initialState prompt) t1).state t2).state t3).state := by
    simp only [loopMain, loopGo, if_pos hle1, if_pos hle2, if_pos hle3, ho1, ho2, ho3]
  rw [run]
  refine ⟨?_, ?_, ?_, ?_, escalation_distinct⟩ <;>
  · rw [s3, s2, s1]
    simp [initialState, finalResult]

/-- C4 (witness): the theorem applied to three concrete verdict-free turns. -/
theorem c4_witness :
    (loopMain 3 7 "do the task"
        [⟨0, none, none, 0⟩, ⟨0, none, none, 0⟩, ⟨0, none, none, 0⟩]).summaries.length = 3 ∧
    (loopMain 3 7 "do the task"
        [⟨0, none, none, 0⟩, ⟨0, none, none, 0⟩, ⟨0, none, none, 0⟩]).prompts =
      ["do the task", continueMessage none 1, continueMessage none 2] ∧
    finalResult (loopMain 3 7 "do the task"
        [⟨0, none, none, 0⟩, ⟨0, none, none, 0⟩, ⟨0, none, none, 0⟩]).summaries = "incomplete" ∧
    continueMessage none 5 ≠ continueMessage none 1 := by
  have h := c4_budget_exhaustion_run 7 "do the task"
    ⟨0, none, none, 0⟩ ⟨0, none, none, 0⟩ ⟨0, none, none, 0⟩
    rfl rfl (fun d hd => nomatch hd) rfl rfl (fun d hd => nomatch hd)
    rfl rfl (fun d hd => nomatch hd)
  exact ⟨h.1, h.2.2.1, h.2.2.2.1, (h.2.2.2.2.2 5 (by norm_num)).1⟩

/-- C5: with `maxRetries = 3` and a first turn that errors twice before going
idle, the coordinator returns `"idle"` after issuing exactly 2 retries, with
`onRetry` called with 0 and then 1; the backoff delays taken before those
retry prompts are 0 ms and 5000 ms, and the schedule gives 15000 ms for the
third retry and beyond. -/
theorem c5_retry_schedule :
    waitForIdleOrError 2 3 = (.idle, [0, 1]) ∧
    (waitForIdleOrError 2 3).2.map retryDelay = [0, 5000] ∧
    retryDelay 0 = 0 ∧ retryDelay 1 = 5000 ∧ ∀ n, 2 ≤ n → retryDelay n = 15000 := by
  refine ⟨by decide, by decide, rfl, rfl, ?_⟩
  intro n hn
  obtain ⟨k, rfl⟩ : ∃ k, n = k + 2 := ⟨n - 2, by omega⟩
  cases k <;> rfl

/-- C5 (witness): the schedule beyond the third retry, from the theorem. -/
theorem c5_witness :
    waitForIdleOrError 2 3 = (.idle, [0, 1]) ∧ retryDelay 9 = 15000 :=
  ⟨c5_retry_schedule.1, c5_retry_schedule.2.2.2.2 9 (by norm_num)⟩

/-- C6: across every transition of the orchestrator loop, the
`consecutiveMisses` counter is left unchanged by a retry-exhausted iteration
(no verdict is reconciled there), set to 0 by every iteration whose
reconciled verdict is present (any status, including progress and unknown),
and incremented by exactly 1 by every iteration whose reconciled verdict is
absent; the counter starts at 0. All state transitions of a run go through
`loopStep`, so this characterizes every change of the counter. -/
theorem c6_misses_transition :
    (∀ prompt : String, (initialState prompt).consecutiveMisses = 0) ∧
    ∀ (maxI maxR : Nat) (st : LoopState) (turn : TurnBehavior),
      (loopStep maxI maxR st turn).state.consecutiveMisses =
        if (loopStep maxI maxR st turn).outcome = .stopError then st.consecutiveMisses
        else if (loopStep maxI maxR st turn).verdict.isSome = true then 0
        else st.consecutiveMisses + 1 := by
  refine ⟨fun _ => rfl, ?_⟩
  intro maxI maxR st turn
  rcases hw : (waitForIdleOrError turn.errors maxR).1 with _ | _
  · rcases hi : turn.inline with _ | r
    · rcases hp : turn.pull with _ | d
      · simp [loopStep, hw, hi, hp]
      · rcases he : extractLoopControl d.parts with _ | r2
        · simp [loopStep, hw, hi, hp, he]
        · simp only [loopStep, hw, hi, hp, he]
          split <;> simp
    · simp only [loopStep, hw, hi]
      split <;> simp
  · simp [loopStep, hw]

/-- C7: in every run the appended records carry the contiguous ascending
index sequence 1, 2, ..., n (hence no two records share an index), and each
iteration only ever appends to the run list — the previous records survive
unchanged as a prefix. -/
theorem c7_indices_contiguous :
    (∀ (maxI maxR : Nat) (prompt : String) (trace : List TurnBehavior),
      (loopMain maxI maxR prompt trace).summaries.map (fun s => s.iteration) =
        List.range' 1 (loopMain maxI maxR prompt trace).summaries.length ∧
      ((loopMain maxI maxR prompt trace).summaries.map (fun s => s.iteration)).Nodup) ∧
    ∀ (maxI maxR : Nat) (st : LoopState) (turn : TurnBehavior),
      (loopStep maxI maxR st turn).state.summaries.take st.summaries.length = st.summaries := by
  constructor
  · intro maxI maxR prompt trace
    have h := loopGo_indices maxI maxR trace (initialState prompt) (by rfl) (by rfl)
    exact ⟨h, h ▸ List.nodup_range' _ _⟩
  · intro maxI maxR st turn
    rcases loopStep_cases maxI maxR st turn with ⟨_, hs, _, _⟩ | ⟨_, s, _, _, hs, _, _⟩
    · rw [hs, List.take_length]
    · rw [hs, List.take_left]

/-- C8: for every parts list containing no declare-status (`loop_control`)
part at all, the classifier returns absent (`none`), never an `unknown`
verdict. -/
theorem c8_absent_when_no_declare (parts : List Part)
    (h : ∀ p ∈ parts, isLoopControl p = false) :
    extractLoopControl parts = none :=
  extractLoopControlRev_eq_none parts.reverse (fun p hp => h p (List.mem_reverse.mp hp))

/-- C8 (witness): the theorem applied to a list with tool and non-tool parts
but no declare-status part. -/
theorem c8_witness :
    extractLoopControl
      [Part.other, Part.tool "bash" (.completed ⟨some "complete", none⟩)] = none :=
  c8_absent_when_no_declare
    [Part.other, Part.tool "bash" (.completed ⟨some "complete", none⟩)] (by decide)

/-- C9: at the end of every run the `totalCost` handed to the run-complete
callback equals the sum of the `cost` fields over the reported records, and
each non-error iteration appends exactly one record whose cost is the value
returned by the pull query, or 0 when the query returned nothing. Costs are
modelled as rational numbers. -/
theorem c9_totalCost_sum :
    (∀ (maxI maxR : Nat) (prompt : String) (trace : List TurnBehavior),
      (loopMain maxI maxR prompt trace).totalCost =
        ((loopMain maxI maxR prompt trace).summaries.map (fun s => s.cost)).sum) ∧
    ∀ (maxI maxR : Nat) (st : LoopState) (turn : TurnBehavior),
      (loopStep maxI maxR st turn).state.summaries.map (fun s => s.cost) =
        st.summaries.map (fun s => s.cost) ++
          (if (loopStep maxI maxR st turn).outcome = .stopError then []
           else [(turn.pull.map (fun d => d.cost)).getD 0]) := by
  constructor
  · intro maxI maxR prompt trace
    exact loopGo_totalCost maxI maxR trace (initialState prompt) (by rfl)
  · intro maxI maxR st turn
    rcases loopStep_cases maxI maxR st turn with ⟨ho, hs, _, _⟩ | ⟨hne, s, _, hcost, hs, _, _⟩
    · rw [if_pos ho, hs, List.append_nil]
    · rw [if_neg hne, hs, List.map_append]
      simp [hcost]

/-- C10: for every `maxRetries = m` and a turn that delivers only errors (at
least `max m 1` of them, so idle never wins), the coordinator returns
`"error"` and `onRetry` is invoked exactly `m - 1` times (natural
subtraction, so `max (m-1) 0` times) with arguments 0, 1, ..., m-2; in
particular with `m = 0` or `m = 1` the first error is immediately fatal and
`onRetry` is never invoked. -/
theorem c10_error_exhaustion (m e : Nat) (h1 : 1 ≤ e) (h2 : m ≤ e) :
    waitForIdleOrError e m = (.error, List.range (m - 1)) := by
  rw [waitForIdleOrError, waitGo_error m e 0 h1 (by omega), List.range_eq_range']
  simp

/-- C10 (witness): the theorem applied at `m = 3` with 5 errors, and at the
degenerate budgets 0 and 1 with a single error. -/
theorem c10_witness :
    waitForIdleOrError 5 3 = (.error, List.range 2) ∧
    waitForIdleOrError 1 0 = (.error, List.range 0) ∧
    waitForIdleOrError 1 1 = (.error, List.range 0) :=
  ⟨c10_error_exhaustion 3 5 (by norm_num) (by norm_num),
   c10_error_exhaustion 0 1 (by norm_num) (by norm_num),
   c10_error_exhaustion 1 1 (by norm_num) (by norm_num)⟩

end Loop
